import Mathlib

/-!
Shallow embedding of the pace-analysis core of `src/app.py` (functions
`calculate_early_pace_speed`, `determine_running_style`,
`extract_jockey_target_position`, `calculate_pace_score`,
`apply_give_up_synergy`, `format_formation`) and proofs settling the
frozen claims about it.  Python floats are modelled as rationals; pandas
NaN for a missing early 3-furlong time is modelled as `Option`.
-/

namespace Tenkai

/-- One historical race record of a horse (one `past_races` dict in the
Python source, fields as built by `fetch_real_data`). -/
structure PastRace where
  venue : String
  track_type : String
  distance : Int
  track_condition : String
  finish_position : Int
  popularity : Int
  early_3f : Option ℚ
  first_corner_pos : Int
  is_late_start : Bool
  past_frame : Int
  weight : ℚ
deriving DecidableEq, Repr

/-- A horse entry (one dict of `horses_data` in the Python source), with
the computed fields the engine writes (`score`, `special_flag`,
`running_style`, `max_early_speed`, `condition_mod`). -/
structure Horse where
  horse_number : Int
  horse_name : String := ""
  current_weight : ℚ
  past_races : List PastRace
  score : ℚ := 0
  special_flag : String := ""
  running_style : String := ""
  max_early_speed : ℚ := 0
  condition_mod : ℚ := 0
deriving DecidableEq, Repr

/-- `JRA_VENUES`: the ten major-circuit venues. -/
def JRA_VENUES : List String :=
  ["札幌", "函館", "福島", "新潟", "東京", "中山", "中京", "京都", "阪神", "小倉"]

/-- `turf_start_dirt` course list from `calculate_early_pace_speed`. -/
def turf_start_dirt : List (String × Int) :=
  [("東京", 1600), ("中山", 1200), ("阪神", 1400), ("京都", 1400), ("新潟", 1200), ("中京", 1400)]

/-- `uphill_starts` course list from `calculate_early_pace_speed`. -/
def uphill_starts : List (String × Int × String) :=
  [("中山", 2000, "芝"), ("阪神", 2000, "芝"), ("中京", 2000, "芝")]

/-- `downhill_starts` course list from `calculate_early_pace_speed`. -/
def downhill_starts : List (String × Int × String) :=
  [("京都", 1400, "芝"), ("京都", 1600, "芝"), ("新潟", 1000, "芝")]

/-- `outside_adv_courses`: courses whose post-position baseline is inverted
(defined verbatim, twice, in `calculate_pace_score` and
`apply_give_up_synergy`). -/
def outside_adv_courses : List (String × Int × String) :=
  [("中山", 1200, "ダート"), ("東京", 1600, "ダート"), ("阪神", 1400, "ダート"), ("京都", 1400, "ダート")]

/-- `calculate_early_pace_speed(row, current_dist)`: converts the early
3-furlong time of one past race into a corrected speed figure; `none`
models the `np.nan` returned when `early_3f` is missing. -/
def calculate_early_pace_speed (row : PastRace) (current_dist : Int) : Option ℚ :=
  match row.early_3f with
  | none => none
  | some e3f =>
    let raw_speed : ℚ := 600 / e3f
    let raw_speed : ℚ := if row.venue ∈ JRA_VENUES then raw_speed else raw_speed - 0.3
    let condition_mod : ℚ :=
      if row.track_type = "芝" then
        (if row.track_condition = "重" ∨ row.track_condition = "不良" then 0.15
         else if row.track_condition = "稍" then 0.05 else 0)
      else if row.track_type = "ダート" then
        (if row.track_condition = "重" ∨ row.track_condition = "不良" then -0.15
         else if row.track_condition = "稍" then -0.05 else 0)
      else 0
    let course_mod : ℚ :=
      (if row.track_type = "ダート" ∧ (row.venue, row.distance) ∈ turf_start_dirt then -0.15 else 0)
      + (if (row.venue, row.distance, row.track_type) ∈ uphill_starts then 0.15 else 0)
      + (if (row.venue, row.distance, row.track_type) ∈ downhill_starts then -0.15 else 0)
    let dist_diff : Int := row.distance - current_dist
    let distance_mod : ℚ :=
      if 0 < dist_diff then -((dist_diff : ℚ) / 100) * 0.05
      else if dist_diff < 0 then -(((-dist_diff : Int) : ℚ) / 100) * 0.10
      else 0
    some (raw_speed + condition_mod + course_mod + distance_mod)

/-- `determine_running_style(past_df)`: classifies the horse's temperament
from its "good runs" (`finish<=3` or beat expectation with `finish<=5`). -/
def determine_running_style (past : List PastRace) : String :=
  match past with
  | [] => "不明"
  | _ :: _ =>
    let good := past.filter fun r =>
      decide (r.finish_position ≤ 3 ∨ (r.finish_position < r.popularity ∧ r.finish_position ≤ 5))
    if good = [] then "不明"
    else if good.all fun r => decide (r.first_corner_pos = 1) then "ハナ絶対"
    else if good.any fun r => decide (2 ≤ r.first_corner_pos ∧ r.first_corner_pos ≤ 5) then "控えOK"
    else "差し追込"

/-- Success predicate of `extract_jockey_target_position`:
`finish_position <= 3 or popularity > finish_position`. -/
def is_race_success (r : PastRace) : Prop :=
  r.finish_position ≤ 3 ∨ r.finish_position < r.popularity

instance (r : PastRace) : Decidable (is_race_success r) := by
  unfold is_race_success; infer_instance

/-- `extract_jockey_target_position(past_races_df, current_venue)`: the
first-corner position of the most recent same-venue success, else of the
most recent success, else the mean first-corner position; `9.5` if the
history is empty.  Records are ordered most-recent-first, and pandas
boolean filtering keeps that order, so `.iloc[0]` is the first match. -/
def extract_jockey_target_position (past_races : List PastRace) (current_venue : String) : ℚ :=
  match past_races with
  | [] => 9.5
  | _ :: _ =>
    match (past_races.filter fun r =>
        decide (is_race_success r) && decide (r.venue = current_venue)).head? with
    | some r => (r.first_corner_pos : ℚ)
    | none =>
      match (past_races.filter fun r => decide (is_race_success r)).head? with
      | some r => (r.first_corner_pos : ℚ)
      | none =>
        ((past_races.map fun r => (r.first_corner_pos : ℚ)).sum) / (past_races.length : ℚ)

/-- Maximum of a list of rationals (`pandas Series.max` over the non-NaN
entries; `none` when every entry was NaN). -/
def listMaxQ : List ℚ → Option ℚ
  | [] => none
  | x :: xs => some (xs.foldl max x)

/-- `past_df['early_speed'].max()`: best corrected early speed over the
history, skipping missing values. -/
def max_speed_val (past : List PastRace) (current_dist : Int) : Option ℚ :=
  listMaxQ (past.filterMap fun r => calculate_early_pace_speed r current_dist)

/-- Flag concatenation idiom of the source:
`prfx = flag + " " if flag else ""` followed by `(prfx + tag).strip()`
(the accumulated flag never has outer whitespace, so `strip` is the
identity there). -/
def appendFlag (flag tag : String) : String :=
  if flag = "" then tag else flag ++ " " ++ tag

/-- `speed_advantage` term of `calculate_pace_score`: `0.0` when no early
speed exists, else `(16.8 - max_speed) * speed_multiplier` with the
multiplier `4.0` for dirt sprints (`<=1400m`) and `3.0` otherwise. -/
def speed_advantage_val (max_speed : Option ℚ) (current_dist : Int) (current_track : String) : ℚ :=
  match max_speed with
  | none => 0
  | some m => (16.8 - m) * (if current_track = "ダート" ∧ current_dist ≤ 1400 then 4 else 3)

/-- `base_position` of `calculate_pace_score`:
`jockey_target * 0.6 + speed_advantage`. -/
def base_position_val (past : List PastRace) (current_dist : Int)
    (current_venue current_track : String) : ℚ :=
  extract_jockey_target_position past current_venue * 0.6
    + speed_advantage_val (max_speed_val past current_dist) current_dist current_track

/-- `base_mod` of `calculate_pace_score`: per-stall penalty
`(horse_number - 1) * 0.05`, inverted to
`(total_horses - horse_number) * 0.02 - 0.15` on `outside_adv_courses`. -/
def base_mod_val (horse_number total_horses : Int) (current_venue : String)
    (current_dist : Int) (current_track : String) : ℚ :=
  if (current_venue, current_dist, current_track) ∈ outside_adv_courses then
    ((total_horses : ℚ) - (horse_number : ℚ)) * 0.02 - 0.15
  else ((horse_number : ℚ) - 1) * 0.05

/-- `late_start_penalty` accumulated by `calculate_pace_score` over its
five condition blocks (regional last race, distance stretch, distance
cut, slow-start block, outer-draw wait-and-see). -/
def late_penalty_val (horse : Horse) (last_race : PastRace) (style : String)
    (current_dist : Int) (total_horses : Int) : ℚ :=
  (if last_race.venue ∈ JRA_VENUES then 0 else 1)
  + (if last_race.distance < current_dist ∧ style ≠ "ハナ絶対" then 0.5 else 0)
  + (if current_dist < last_race.distance then 0.3 else 0)
  + (if last_race.is_late_start then
      1 + (if last_race.first_corner_pos ≤ 5 then
            (if 5 ≤ last_race.past_frame ∧ (horse.horse_number : ℚ) ≤ (total_horses : ℚ) / 2
              then (1.5 : ℚ)
             else if 5 ≤ last_race.past_frame ∧ ¬ (horse.horse_number : ℚ) ≤ (total_horses : ℚ) / 2
              then -0.5 else 0)
           else 0)
     else 0)
  + (if total_horses - 5 < horse.horse_number
        ∧ (-2 : ℚ) < horse.current_weight - last_race.weight ∧ style ≠ "ハナ絶対"
     then 0.7 else 0)

/-- `special_flag` string accumulated by `calculate_pace_score`, mirroring
`late_penalty_val` block by block. -/
def special_flag_val (horse : Horse) (last_race : PastRace) (style : String)
    (current_dist : Int) (total_horses : Int) : String :=
  let f1 := if last_race.venue ∈ JRA_VENUES then "" else "⚠️前走地方"
  let f2 := if last_race.distance < current_dist ∧ style ≠ "ハナ絶対" then
              appendFlag f1 "🐎距離延長(控える可能性)" else f1
  let f3 := if current_dist < last_race.distance then
              appendFlag f2 "🐢距離短縮(追走注意)" else f2
  let f4 := if last_race.is_late_start ∧ last_race.first_corner_pos ≤ 5 then
              (if 5 ≤ last_race.past_frame ∧ (horse.horse_number : ℚ) ≤ (total_horses : ℚ) / 2
                then appendFlag f3 "⚠️内枠包まれ懸念"
               else if 5 ≤ last_race.past_frame ∧ ¬ (horse.horse_number : ℚ) ≤ (total_horses : ℚ) / 2
                then appendFlag f3 "🐎外枠リカバー警戒"
               else f3)
            else f3
  if total_horses - 5 < horse.horse_number
      ∧ (-2 : ℚ) < horse.current_weight - last_race.weight ∧ style ≠ "ハナ絶対"
  then appendFlag f4 "👁️外枠様子見(控える)" else f4

/-- The unclamped `final_score` sum of `calculate_pace_score` for a horse
with a non-empty history:
`base_position + weight_modifier + base_mod + late_start_penalty`. -/
def pace_raw (horse : Horse) (last_race : PastRace) (restPast : List PastRace)
    (current_dist : Int) (current_venue current_track : String) (total_horses : Int) : ℚ :=
  base_position_val (last_race :: restPast) current_dist current_venue current_track
  + (horse.current_weight - last_race.weight) * 0.25
  + base_mod_val horse.horse_number total_horses current_venue current_dist current_track
  + late_penalty_val horse last_race (determine_running_style (last_race :: restPast))
      current_dist total_horses

/-- Empty-history branch of `calculate_pace_score`: neutral `10.0` plus the
per-stall term, and the documented placeholder annotations. -/
def pace_empty (horse : Horse) : Horse :=
  { horse with
    condition_mod := 0
    special_flag := "❓データ不足"
    max_early_speed := 16
    running_style := "不明"
    score := 10 + ((horse.horse_number : ℚ) - 1) * 0.05 }

/-- Non-empty-history branch of `calculate_pace_score`: computed style,
best early speed (`16.0` when missing), accumulated flag, and the final
score clamped into `[1.0, 18.0]` by `max(1.0, min(18.0, ...))`. -/
def pace_nonempty (horse : Horse) (last_race : PastRace) (restPast : List PastRace)
    (current_dist : Int) (current_venue current_track : String) (total_horses : Int) : Horse :=
  let style := determine_running_style (last_race :: restPast)
  { horse with
    running_style := style
    max_early_speed := (max_speed_val (last_race :: restPast) current_dist).getD 16
    special_flag := special_flag_val horse last_race style current_dist total_horses
    score := max 1 (min 18
      (pace_raw horse last_race restPast current_dist current_venue current_track total_horses)) }

/-- `calculate_pace_score(horse, current_dist, current_venue,
current_track, total_horses)`: the per-horse scorer.  The Python function
mutates the horse's annotation fields and returns the score, which the
caller stores into `horse['score']`; here it returns the updated horse. -/
def calculate_pace_score (horse : Horse) (current_dist : Int)
    (current_venue current_track : String) (total_horses : Int) : Horse :=
  match horse.past_races with
  | [] => pace_empty horse
  | last_race :: restPast =>
      pace_nonempty horse last_race restPast current_dist current_venue current_track total_horses

/-- Inner-loop give-up test of `apply_give_up_synergy`: does rival `o`
make must-lead horse `h` yield?  (`diff = h.score - o.score`; yield when
`diff >= 1.0`, or when `0 <= diff < 1.0` and `o` is drawn on the
contested side - outward on outside-favoring courses, inward otherwise.) -/
def giveUpAgainst (is_outside_adv : Bool) (h o : Horse) : Bool :=
  decide (o.horse_number ≠ h.horse_number ∧
    (1 ≤ h.score - o.score ∨
      (0 ≤ h.score - o.score ∧ h.score - o.score < 1 ∧
        (if is_outside_adv then h.horse_number < o.horse_number
         else o.horse_number < h.horse_number))))

/-- Body of the outer loop of `apply_give_up_synergy` for one horse `h`,
given the current state `field` of the whole list: a must-lead horse with
a give-up rival takes the additive penalty (`1.0` when the course favors
outside posts and it is drawn in the outer half, else `1.5`), gains the
annotation, and is downgraded to `先行（控える）`. -/
def adjustOne (is_outside_adv : Bool) (field : List Horse) (h : Horse) : Horse :=
  if h.running_style = "ハナ絶対" ∧ field.any (giveUpAgainst is_outside_adv h) = true then
    { h with
      score := h.score +
        (if is_outside_adv = true ∧ (field.length : ℚ) / 2 ≤ (h.horse_number : ℚ)
         then 1 else 1.5)
      special_flag := appendFlag h.special_flag "📉枠差・控える可能性"
      running_style := "先行（控える）" }
  else h

/-- The in-place `for h in horses` loop of `apply_give_up_synergy`:
`done` holds the already-processed prefix (updates visible to later
iterations), `todo` the rest; each horse is examined against the current
state `done ++ todo`. -/
def synergyGo (is_outside_adv : Bool) (done : List Horse) : List Horse → List Horse
  | [] => done
  | h :: rest =>
      synergyGo is_outside_adv (done ++ [adjustOne is_outside_adv (done ++ h :: rest) h]) rest

/-- `apply_give_up_synergy(horses, current_venue, current_dist,
current_track)`: the single-pass inter-horse adjustment. -/
def apply_give_up_synergy (horses : List Horse) (current_venue : String)
    (current_dist : Int) (current_track : String) : List Horse :=
  synergyGo (decide ((current_venue, current_dist, current_track) ∈ outside_adv_courses)) [] horses

/-- The scoring pipeline of the app's main loop: score every horse with
`total_horses = len(horses)`, then run the synergy adjuster. -/
def score_field (horses : List Horse) (current_dist : Int)
    (current_venue current_track : String) : List Horse :=
  apply_give_up_synergy
    (horses.map fun h =>
      calculate_pace_score h current_dist current_venue current_track (horses.length : Int))
    current_venue current_dist current_track

/-- The four bands built by `format_formation` (lists of the circled
horse-number glyphs `chr(9311 + n)`). -/
structure Formation where
  leaders : List String
  chasers : List String
  mid : List String
  backs : List String
deriving DecidableEq, Repr

/-- One iteration of the banding loop of `format_formation`. -/
def formationStep (top_score : ℚ) (acc : Formation) (h : Horse) : Formation :=
  let num_str := String.singleton (Char.ofNat (9311 + h.horse_number).toNat)
  if h.score ≤ top_score + 1.2 ∧ acc.leaders.length < 3 then
    { acc with leaders := acc.leaders ++ [num_str] }
  else if h.score ≤ top_score + 4.5 then { acc with chasers := acc.chasers ++ [num_str] }
  else if h.score ≤ top_score + 9.5 then { acc with mid := acc.mid ++ [num_str] }
  else { acc with backs := acc.backs ++ [num_str] }

/-- The band assignment computed by `format_formation(sorted_horses)`:
gap thresholds `1.2 / 4.5 / 9.5` from the first horse's score, leader
band capped at 3. -/
def formation_groups : List Horse → Formation
  | [] => ⟨[], [], [], []⟩
  | h :: rest => (h :: rest).foldl (formationStep h.score) ⟨[], [], [], []⟩

/-- `format_formation(sorted_horses)`: renders the bands as
`(leaders) chasers mid backs`, skipping empty bands. -/
def format_formation (sorted_horses : List Horse) : String :=
  match sorted_horses with
  | [] => ""
  | _ :: _ =>
    let g := formation_groups sorted_horses
    String.intercalate " "
      ((if g.leaders ≠ [] then ["(" ++ String.join g.leaders ++ ")"] else [])
        ++ (if g.chasers ≠ [] then [String.join g.chasers] else [])
        ++ (if g.mid ≠ [] then [String.join g.mid] else [])
        ++ (if g.backs ≠ [] then [String.join g.backs] else []))

/-! ### Helper lemmas -/

lemma clamp_ge_one (x : ℚ) : 1 ≤ max 1 (min 18 x) := le_max_left _ _

lemma clamp_le_eighteen (x : ℚ) : max 1 (min 18 x) ≤ 18 :=
  max_le (by norm_num) (min_le_left _ _)

lemma clamp_mono {x y : ℚ} (h : x ≤ y) : max 1 (min 18 x) ≤ max 1 (min 18 y) :=
  max_le_max le_rfl (min_le_min le_rfl h)

lemma clamp_shift {x : ℚ} (h1 : 1 < max 1 (min 18 x)) (h2 : max 1 (min 18 (x + 1)) < 18) :
    max 1 (min 18 (x + 1)) = max 1 (min 18 x) + 1 := by
  have hm1 : 1 < min 18 x := by
    rcases lt_max_iff.1 h1 with h | h
    · exact absurd h (lt_irrefl _)
    · exact h
  have hx1 : 1 < x := lt_of_lt_of_le hm1 (min_le_right _ _)
  have hm2 : min 18 (x + 1) < 18 := lt_of_le_of_lt (le_max_right _ _) h2
  have hx2 : x + 1 < 18 := by
    rcases min_lt_iff.1 hm2 with h | h
    · exact absurd h (lt_irrefl _)
    · exact h
  rw [min_eq_right (by linarith : x + 1 ≤ 18), min_eq_right (by linarith : x ≤ 18),
    max_eq_right (by linarith : (1:ℚ) ≤ x + 1), max_eq_right (by linarith : (1:ℚ) ≤ x)]

lemma calculate_pace_score_nil (h : Horse) (current_dist : Int)
    (current_venue current_track : String) (total_horses : Int) (hp : h.past_races = []) :
    calculate_pace_score h current_dist current_venue current_track total_horses = pace_empty h := by
  unfold calculate_pace_score
  rw [hp]

lemma calculate_pace_score_cons (h : Horse) (last_race : PastRace) (restPast : List PastRace)
    (current_dist : Int) (current_venue current_track : String) (total_horses : Int)
    (hp : h.past_races = last_race :: restPast) :
    calculate_pace_score h current_dist current_venue current_track total_horses =
      pace_nonempty h last_race restPast current_dist current_venue current_track total_horses := by
  unfold calculate_pace_score
  rw [hp]

/-- The update the give-up rule applies to a yielding must-lead horse:
additive penalty (1.0 when the course favors outside posts and the horse
is drawn in the outer half, else 1.5), an annotation, and the downgrade
of its style label from `ハナ絶対` to `先行（控える）`. -/
def yield_update (b : Bool) (field_size : Nat) (h : Horse) : Horse :=
  { h with
    score := h.score +
      (if b = true ∧ (field_size : ℚ) / 2 ≤ (h.horse_number : ℚ) then 1 else 1.5)
    special_flag := appendFlag h.special_flag "📉枠差・控える可能性"
    running_style := "先行（控える）" }

lemma adjustOne_pos (b : Bool) (field : List Horse) (h : Horse)
    (hs : h.running_style = "ハナ絶対") (hx : ∃ o ∈ field, giveUpAgainst b h o = true) :
    adjustOne b field h = yield_update b field.length h := by
  unfold adjustOne yield_update
  rw [if_pos ⟨hs, List.any_eq_true.2 hx⟩]

lemma adjustOne_neg (b : Bool) (field : List Horse) (h : Horse)
    (hx : ¬ ∃ o ∈ field, giveUpAgainst b h o = true) :
    adjustOne b field h = h := by
  unfold adjustOne
  rw [if_neg]
  rintro ⟨-, hany⟩
  exact hx (List.any_eq_true.1 hany)

lemma adjustOne_of_ne_style (b : Bool) (field : List Horse) (h : Horse)
    (hs : h.running_style ≠ "ハナ絶対") :
    adjustOne b field h = h := by
  unfold adjustOne
  rw [if_neg]
  rintro ⟨hs', -⟩
  exact hs hs'

lemma adjustOne_score_le (b : Bool) (field : List Horse) (h : Horse) :
    h.score ≤ (adjustOne b field h).score ∧ (adjustOne b field h).score ≤ h.score + 1.5 := by
  unfold adjustOne
  split_ifs with hc hc2 <;> constructor <;> norm_num

/-- Structure of the single synergy pass: it appends to `done` a list
`todo'` in which the horse at each position `j` is the result of
`adjustOne` run against the field state at the moment it was processed
(already-adjusted earlier horses, untouched later ones). -/
lemma synergyGo_spec (b : Bool) (todo : List Horse) :
    ∀ done : List Horse, ∃ todo',
      synergyGo b done todo = done ++ todo' ∧ todo'.length = todo.length ∧
      ∀ (j : Nat) (h : Horse), todo[j]? = some h →
        todo'[j]? = some (adjustOne b (done ++ todo'.take j ++ todo.drop j) h) := by
  induction todo with
  | nil =>
    intro done
    refine ⟨[], by simp [synergyGo], rfl, ?_⟩
    intro j h hj
    simp at hj
  | cons h rest ih =>
    intro done
    obtain ⟨rest', e1, e2, e3⟩ := ih (done ++ [adjustOne b (done ++ h :: rest) h])
    refine ⟨adjustOne b (done ++ h :: rest) h :: rest', ?_, by simp [e2], ?_⟩
    · rw [synergyGo, e1]
      simp
    · intro j hh hj
      cases j with
      | zero =>
        simp only [List.getElem?_cons_zero, Option.some.injEq] at hj
        subst hj
        simp
      | succ j =>
        simp only [List.getElem?_cons_succ] at hj ⊢
        rw [e3 j hh hj]
        congr 2
        simp

lemma apply_synergy_go (horses : List Horse) (current_venue : String) (current_dist : Int)
    (current_track : String) :
    ∃ todo', apply_give_up_synergy horses current_venue current_dist current_track = todo' ∧
      todo'.length = horses.length ∧
      ∀ (j : Nat) (h : Horse), horses[j]? = some h →
        todo'[j]? = some
          (adjustOne (decide ((current_venue, current_dist, current_track) ∈ outside_adv_courses))
            (todo'.take j ++ horses.drop j) h) := by
  obtain ⟨todo', e1, e2, e3⟩ :=
    synergyGo_spec (decide ((current_venue, current_dist, current_track) ∈ outside_adv_courses))
      horses []
  refine ⟨todo', ?_, e2, ?_⟩
  · unfold apply_give_up_synergy
    rw [e1]
    simp
  · intro j h hj
    have := e3 j h hj
    simpa using this

lemma apply_synergy_length (horses : List Horse) (current_venue : String) (current_dist : Int)
    (current_track : String) :
    (apply_give_up_synergy horses current_venue current_dist current_track).length =
      horses.length := by
  obtain ⟨todo', e1, e2, -⟩ := apply_synergy_go horses current_venue current_dist current_track
  rw [e1, e2]

lemma apply_synergy_get (horses : List Horse) (current_venue : String) (current_dist : Int)
    (current_track : String) (j : Nat) (h : Horse) (hj : horses[j]? = some h) :
    (apply_give_up_synergy horses current_venue current_dist current_track)[j]? =
      some (adjustOne (decide ((current_venue, current_dist, current_track) ∈ outside_adv_courses))
        ((apply_give_up_synergy horses current_venue current_dist current_track).take j
          ++ horses.drop j) h) := by
  obtain ⟨todo', e1, -, e3⟩ := apply_synergy_go horses current_venue current_dist current_track
  rw [e1]
  exact e3 j h hj

lemma pace_nonempty_score (horse : Horse) (last_race : PastRace) (restPast : List PastRace)
    (current_dist : Int) (current_venue current_track : String) (total_horses : Int) :
    (pace_nonempty horse last_race restPast current_dist current_venue current_track
        total_horses).score =
      max 1 (min 18
        (pace_raw horse last_race restPast current_dist current_venue current_track
          total_horses)) := rfl

lemma pace_empty_score (horse : Horse) :
    (pace_empty horse).score = 10 + ((horse.horse_number : ℚ) - 1) * 0.05 := rfl

/-- The score of any scored horse with a non-empty history is clamped
into `[1, 18]`; with an empty history it is `10 + (n-1)*0.05`, which is
in `[1, 18]` whenever the post number is between 1 and 18. -/
lemma calc_score_bounds (h : Horse) (current_dist : Int) (current_venue current_track : String)
    (total_horses : Int) (hn1 : 1 ≤ h.horse_number) (hn2 : h.horse_number ≤ 18) :
    1 ≤ (calculate_pace_score h current_dist current_venue current_track total_horses).score ∧
      (calculate_pace_score h current_dist current_venue current_track total_horses).score ≤ 18 := by
  cases hp : h.past_races with
  | nil =>
    rw [calculate_pace_score_nil h current_dist current_venue current_track total_horses hp,
      pace_empty_score]
    have c1 : (1 : ℚ) ≤ (h.horse_number : ℚ) := by exact_mod_cast hn1
    have c2 : (h.horse_number : ℚ) ≤ 18 := by exact_mod_cast hn2
    constructor <;> nlinarith
  | cons l r =>
    rw [calculate_pace_score_cons h l r current_dist current_venue current_track total_horses hp,
      pace_nonempty_score]
    exact ⟨clamp_ge_one _, clamp_le_eighteen _⟩

lemma formationStep_leaders_le (top_score : ℚ) (acc : Formation) (h : Horse)
    (hacc : acc.leaders.length ≤ 3) :
    (formationStep top_score acc h).leaders.length ≤ 3 := by
  unfold formationStep
  split_ifs with h1 h2 h3 <;> simp_all
  omega

lemma formationStep_leaders_mono (top_score : ℚ) (acc : Formation) (h : Horse) :
    acc.leaders.length ≤ (formationStep top_score acc h).leaders.length := by
  unfold formationStep
  split_ifs <;> simp

lemma foldl_leaders_le (top_score : ℚ) (hs : List Horse) :
    ∀ acc : Formation, acc.leaders.length ≤ 3 →
      ((hs.foldl (formationStep top_score) acc).leaders.length ≤ 3) := by
  induction hs with
  | nil => intro acc hacc; simpa using hacc
  | cons h t ih =>
    intro acc hacc
    rw [List.foldl_cons]
    exact ih _ (formationStep_leaders_le top_score acc h hacc)

lemma foldl_leaders_mono (top_score : ℚ) (hs : List Horse) :
    ∀ acc : Formation,
      acc.leaders.length ≤ (hs.foldl (formationStep top_score) acc).leaders.length := by
  induction hs with
  | nil => intro acc; simp
  | cons h t ih =>
    intro acc
    rw [List.foldl_cons]
    exact le_trans (formationStep_leaders_mono top_score acc h) (ih _)

/-- Raising `current_weight` never lowers the accumulated penalty: the
only weight-dependent block is the outer-draw wait-and-see term, whose
trigger `weight_diff > -2.0` is upward closed. -/
lemma late_penalty_mono (h : Horse) (last_race : PastRace) (style : String)
    (current_dist : Int) (total_horses : Int) (w1 w2 : ℚ) (hw : w1 ≤ w2) :
    late_penalty_val { h with current_weight := w1 } last_race style current_dist total_horses ≤
      late_penalty_val { h with current_weight := w2 } last_race style current_dist
        total_horses := by
  unfold late_penalty_val
  simp only
  apply add_le_add
  · exact le_rfl
  · split_ifs with hc1 hc2
    · exact le_rfl
    · exact absurd ⟨hc1.1, by linarith [hc1.2.1], hc1.2.2⟩ hc2
    · norm_num
    · exact le_rfl

/-- The two weight-dependent indicator triggers agree between a horse at
its last-race weight and the same horse 4kg heavier (`0 > -2` and
`4 > -2` both hold), so those two horses' penalty sums are equal. -/
lemma late_penalty_shift (h : Horse) (last_race : PastRace) (style : String)
    (current_dist : Int) (total_horses : Int) :
    late_penalty_val { h with current_weight := last_race.weight + 4 } last_race style
        current_dist total_horses =
      late_penalty_val { h with current_weight := last_race.weight } last_race style
        current_dist total_horses := by
  unfold late_penalty_val
  norm_num

lemma pace_raw_mono (h : Horse) (last_race : PastRace) (restPast : List PastRace)
    (current_dist : Int) (current_venue current_track : String) (total_horses : Int)
    (w1 w2 : ℚ) (hw : w1 ≤ w2) :
    pace_raw { h with current_weight := w1 } last_race restPast current_dist current_venue
        current_track total_horses ≤
      pace_raw { h with current_weight := w2 } last_race restPast current_dist current_venue
        current_track total_horses := by
  unfold pace_raw
  simp only
  have hL := late_penalty_mono h last_race (determine_running_style (last_race :: restPast))
    current_dist total_horses w1 w2 hw
  have hW : (w1 - last_race.weight) * 0.25 ≤ (w2 - last_race.weight) * 0.25 := by linarith
  linarith

lemma pace_raw_shift (h : Horse) (last_race : PastRace) (restPast : List PastRace)
    (current_dist : Int) (current_venue current_track : String) (total_horses : Int) :
    pace_raw { h with current_weight := last_race.weight + 4 } last_race restPast current_dist
        current_venue current_track total_horses =
      pace_raw { h with current_weight := last_race.weight } last_race restPast current_dist
        current_venue current_track total_horses + 1 := by
  unfold pace_raw
  simp only
  rw [late_penalty_shift]
  ring

lemma late_penalty_congr (h1 h2 : Horse) (last_race : PastRace) (style : String)
    (current_dist : Int) (total_horses : Int)
    (hn : h1.horse_number = h2.horse_number) (hw : h1.current_weight = h2.current_weight) :
    late_penalty_val h1 last_race style current_dist total_horses =
      late_penalty_val h2 last_race style current_dist total_horses := by
  unfold late_penalty_val
  rw [hn, hw]

/-! ### Definitions following the spec's words (for comparison only)

These do NOT come from the source; they formalize what the spec claims
the implementation computes, so that the divergence can be stated. -/

/-- Spec wording (§4.1): "success" as `finish_position == 1` OR
`popularity > finish_position`.  The source instead uses
`finish_position <= 3` OR `popularity > finish_position`. -/
def spec_success (r : PastRace) : Prop :=
  r.finish_position = 1 ∨ r.finish_position < r.popularity

instance (r : PastRace) : Decidable (spec_success r) := by
  unfold spec_success; infer_instance

/-- Spec wording (§4.2 step 1): the recency-based position statistic,
the mean of `first_corner_position` over the most recent `K = 3` races. -/
def spec_recency_mean (past : List PastRace) : ℚ :=
  (((past.take 3).map fun r => (r.first_corner_pos : ℚ)).sum) / ((past.take 3).length : ℚ)

/-- Spec wording (§4.2 step 1): base position as the 60/40 blend of the
recency statistic and the jockey target position.  The source computes
`jockey_target * 0.6 + speed_advantage` instead and never uses the
recency statistic. -/
def spec_base_position (past : List PastRace) (current_venue : String) : ℚ :=
  0.6 * spec_recency_mean past + 0.4 * extract_jockey_target_position past current_venue

/-- C3 (amended): the base position is `jockey_target * 0.6 +
speed_advantage`; no recency statistic of `first_corner_position` enters
the blend.  Formally: the pace score of a horse with a non-empty history
depends on its history only through the jockey target position, the best
early speed, the running style, and the last race's record - two horses
agreeing on those signals (and on number and weight) get identical
scores no matter how their remaining `first_corner_position` history
differs. -/
theorem c3_no_recency_blend (h1 h2 : Horse) (current_dist : Int)
    (current_venue current_track : String) (total_horses : Int)
    (hne1 : h1.past_races ≠ []) (hne2 : h2.past_races ≠ [])
    (hjt : extract_jockey_target_position h1.past_races current_venue =
      extract_jockey_target_position h2.past_races current_venue)
    (hms : max_speed_val h1.past_races current_dist = max_speed_val h2.past_races current_dist)
    (hst : determine_running_style h1.past_races = determine_running_style h2.past_races)
    (hlast : h1.past_races.head? = h2.past_races.head?)
    (hnum : h1.horse_number = h2.horse_number)
    (hcw : h1.current_weight = h2.current_weight) :
    (calculate_pace_score h1 current_dist current_venue current_track total_horses).score =
      (calculate_pace_score h2 current_dist current_venue current_track total_horses).score := by
  obtain ⟨l1, r1, hp1⟩ := List.exists_cons_of_ne_nil hne1
  obtain ⟨l2, r2, hp2⟩ := List.exists_cons_of_ne_nil hne2
  have hl : l1 = l2 := by
    rw [hp1, hp2] at hlast
    simpa using hlast
  rw [hp1, hp2] at hjt hms hst
  rw [calculate_pace_score_cons h1 l1 r1 current_dist current_venue current_track total_horses hp1,
    calculate_pace_score_cons h2 l2 r2 current_dist current_venue current_track total_horses hp2,
    pace_nonempty_score, pace_nonempty_score]
  congr 1
  congr 1
  have eB : base_position_val (l1 :: r1) current_dist current_venue current_track =
      base_position_val (l2 :: r2) current_dist current_venue current_track := by
    unfold base_position_val
    rw [hjt, hms]
  have eL : late_penalty_val h1 l1 (determine_running_style (l1 :: r1)) current_dist
      total_horses =
      late_penalty_val h2 l2 (determine_running_style (l2 :: r2)) current_dist total_horses := by
    rw [hst, hl]
    exact late_penalty_congr h1 h2 l2 _ current_dist total_horses hnum hcw
  unfold pace_raw
  rw [eB, eL, hl, hcw, hnum]

/-! ### Concrete inputs used by counterexamples and witnesses -/

/-- A same-venue winning last race carrying 480kg, no early-3F split. -/
def r480win : PastRace := ⟨"東京", "芝", 2000, "良", 1, 1, none, 1, false, 4, 480⟩

/-- C1 counterexample field, horse 1: must-lead winner that gained 100kg
since its last race, pushing its raw score far above the ceiling so the
calculator clamps it to exactly 18.0. -/
def c1A : Horse := { horse_number := 1, current_weight := 580, past_races := [r480win] }

/-- C1 counterexample field, horse 2: empty history, scores 10.05. -/
def c1B : Horse := { horse_number := 2, current_weight := 480, past_races := [] }

/-- A single well-formed horse for the C1 witness. -/
def c1w : Horse := { horse_number := 1, current_weight := 480, past_races := [] }

instance : Inhabited Horse := ⟨{ horse_number := 0, current_weight := 0, past_races := [] }⟩

/-- C2 field: a clear leader drawn at post 1. -/
def c2P : Horse :=
  { horse_number := 1, current_weight := 480, past_races := [], score := 2,
    running_style := "差し追込" }

/-- C2 field: a stalker at post 3 (score 6, within the chaser band of the
leader at 2.0), with the clear leader drawn two posts inward. -/
def c2Q : Horse :=
  { horse_number := 3, current_weight := 480, past_races := [], score := 6,
    running_style := "控えOK" }

/-- C5 field: a must-lead horse at post 2 with score 10. -/
def c5A : Horse :=
  { horse_number := 2, current_weight := 480, past_races := [], score := 10,
    running_style := "ハナ絶対" }

/-- C5 field: a rival at post 3 with the strictly better score 9.5 -
better by less than 1.0 and drawn outward on a normal course, so the
source's give-up test does not fire. -/
def c5B : Horse :=
  { horse_number := 3, current_weight := 480, past_races := [], score := 19 / 2,
    running_style := "差し追込" }

/-- C5 witness field: must-lead horse, score 10. -/
def c5wA : Horse :=
  { horse_number := 1, current_weight := 480, past_races := [], score := 10,
    running_style := "ハナ絶対" }

/-- C5 witness field: rival better by 1.5, which does trigger give-up. -/
def c5wB : Horse :=
  { horse_number := 2, current_weight := 480, past_races := [], score := 17 / 2,
    running_style := "差し追込" }

/-- C10 witness field: must-lead horse with a clearly better rival. -/
def d10a : Horse :=
  { horse_number := 1, current_weight := 480, past_races := [], score := 10,
    running_style := "ハナ絶対" }

/-- C10 witness field: the better-scored rival, not must-lead. -/
def d10b : Horse :=
  { horse_number := 2, current_weight := 480, past_races := [], score := 17 / 2,
    running_style := "差し追込" }

/-- C7 witness horses. -/
def c7w1 : Horse := { horse_number := 1, current_weight := 480, past_races := [], score := 2 }

/-- C7 witness horses. -/
def c7w2 : Horse := { horse_number := 2, current_weight := 480, past_races := [], score := 14 }

/-! ### Claim C7 -/

/-- C7: for every input list of scored horses, the formation classifier
assigns at most 3 horses to the leader band, and whenever the list is
non-empty the leader band is non-empty.  (Confirmed: the band loop only
appends a leader while fewer than 3 are assigned, and the first horse
always satisfies `score <= top + 1.2` with an empty leader list.) -/
theorem c7_leader_cap (horses : List Horse) :
    (formation_groups horses).leaders.length ≤ 3 ∧
      (horses ≠ [] → (formation_groups horses).leaders ≠ []) := by
  cases horses with
  | nil => simp [formation_groups]
  | cons h rest =>
    constructor
    · unfold formation_groups
      exact foldl_leaders_le h.score (h :: rest) ⟨[], [], [], []⟩ (by simp)
    · intro _
      have h1 : (formationStep h.score ⟨[], [], [], []⟩ h).leaders.length = 1 := by
        unfold formationStep
        rw [if_pos]
        · rfl
        · exact ⟨by linarith, by norm_num⟩
      have h2 := foldl_leaders_mono h.score rest (formationStep h.score ⟨[], [], [], []⟩ h)
      rw [h1] at h2
      show ((h :: rest).foldl (formationStep h.score) ⟨[], [], [], []⟩).leaders ≠ []
      rw [List.foldl_cons]
      intro hc
      rw [hc] at h2
      simp at h2

/-- C7 witness: the cap and non-emptiness at a concrete two-horse field. -/
theorem c7_leader_cap_witness :
    (formation_groups [c7w1, c7w2]).leaders.length ≤ 3 ∧
      (formation_groups [c7w1, c7w2]).leaders ≠ [] :=
  ⟨(c7_leader_cap [c7w1, c7w2]).1, (c7_leader_cap [c7w1, c7w2]).2 (by simp)⟩

/-! ### Claim C10 -/

/-- C10: the synergy adjuster never decreases any horse's score; the
increase is at most 1.5 per horse; and every horse not classified
must-lead (`ハナ絶対`) passes through entirely unchanged.  (Confirmed:
the loop body only ever adds a penalty of `1.0` or `1.5`, and only to
must-lead horses.) -/
theorem c10_synergy_frame (horses : List Horse) (current_venue : String) (current_dist : Int)
    (current_track : String) (j : Nat) (h : Horse) (hj : horses[j]? = some h) :
    ∃ h', (apply_give_up_synergy horses current_venue current_dist current_track)[j]? = some h' ∧
      h.score ≤ h'.score ∧ h'.score ≤ h.score + 1.5 ∧
      (h.running_style ≠ "ハナ絶対" → h' = h) := by
  refine ⟨_, apply_synergy_get horses current_venue current_dist current_track j h hj, ?_, ?_, ?_⟩
  · exact (adjustOne_score_le _ _ _).1
  · exact (adjustOne_score_le _ _ _).2
  · intro hs
    exact adjustOne_of_ne_style _ _ _ hs

/-- The expected adjuster output for `d10a`: penalized by 1.5, annotated
and downgraded. -/
def d10adj : Horse :=
  { horse_number := 1, current_weight := 480, past_races := [], score := 23 / 2,
    special_flag := "📉枠差・控える可能性", running_style := "先行（控える）" }

/-- C10 witness: at a concrete field the must-lead horse moves from 10 to
11.5 (within the +1.5 budget) and the non-must-lead rival is unchanged. -/
theorem c10_synergy_frame_witness :
    (apply_give_up_synergy [d10a, d10b] "東京" 2000 "芝")[1]? = some d10b ∧
      d10a.score ≤ 23 / 2 ∧ (23 / 2 : ℚ) ≤ d10a.score + 1.5 := by
  obtain ⟨ha', hea, ha1, ha2, -⟩ := c10_synergy_frame [d10a, d10b] "東京" 2000 "芝" 0 d10a rfl
  obtain ⟨hb', heb, -, -, hb3⟩ := c10_synergy_frame [d10a, d10b] "東京" 2000 "芝" 1 d10b rfl
  have hbeq : hb' = d10b := hb3 (by decide)
  subst hbeq
  have hconc : (apply_give_up_synergy [d10a, d10b] "東京" 2000 "芝")[0]? = some d10adj := by
    norm_num [apply_give_up_synergy, synergyGo, adjustOne, giveUpAgainst, d10a, d10b, d10adj,
      appendFlag, outside_adv_courses]
  have haeq : ha' = d10adj := Option.some.inj (hea.symm.trans hconc)
  have haval : ha'.score = 23 / 2 := by
    rw [haeq]
    norm_num [d10adj]
  exact ⟨heb, haval ▸ ha1, haval ▸ ha2⟩

/-! ### Claim C2 -/

/-- C2 counterexample: a field with a clear leader (score 2.0, post 1)
and a stalker (score 6.0, post 3, within two posts outward of the
leader) - exactly the Rule-A drafting situation the claim describes -
yet the adjuster leaves the stalker's score at 6.0 and its annotations
empty: no score is reduced, so no drafting bonus exists in the code. -/
theorem c2_counterexample :
    (apply_give_up_synergy [c2P, c2Q] "東京" 2000 "芝")[1]? = some c2Q ∧
      c2Q.score = 6 ∧ c2Q.special_flag = "" ∧ ¬ ((6 : ℚ) < 6) := by
  exact ⟨by rfl, rfl, rfl, by norm_num⟩

/-- C2 amended: the synergy adjuster implements no drafting rule at all -
every horse not classified must-lead (in particular every "stalker")
passes through with score and annotations unchanged. -/
theorem c2_no_drafting (horses : List Horse) (current_venue : String) (current_dist : Int)
    (current_track : String) (j : Nat) (h : Horse) (hj : horses[j]? = some h)
    (hs : h.running_style ≠ "ハナ絶対") :
    (apply_give_up_synergy horses current_venue current_dist current_track)[j]? = some h := by
  rw [apply_synergy_get horses current_venue current_dist current_track j h hj,
    adjustOne_of_ne_style _ _ _ hs]

/-- C2 witness: the stalker of the counterexample field is returned
unchanged by the adjuster. -/
theorem c2_no_drafting_witness :
    (apply_give_up_synergy [c2P, c2Q] "東京" 2000 "芝")[1]? = some c2Q :=
  c2_no_drafting [c2P, c2Q] "東京" 2000 "芝" 1 c2Q rfl (by simp [c2Q])

/-! ### Claim C1 -/

lemma synergy_bounds_mem (horses : List Horse) (current_venue : String) (current_dist : Int)
    (current_track : String) (g : Horse)
    (hg : g ∈ apply_give_up_synergy horses current_venue current_dist current_track) :
    ∃ s ∈ horses, s.score ≤ g.score ∧ g.score ≤ s.score + 1.5 := by
  rw [List.mem_iff_getElem?] at hg
  obtain ⟨j, hj⟩ := hg
  have hjlt : j < horses.length := by
    have h1 := (List.getElem?_eq_some.1 hj).1
    rwa [apply_synergy_length] at h1
  obtain ⟨s, hs⟩ : ∃ s, horses[j]? = some s := ⟨_, List.getElem?_eq_getElem hjlt⟩
  have hget := apply_synergy_get horses current_venue current_dist current_track j s hs
  rw [hget] at hj
  have hgeq := Option.some.inj hj
  subst hgeq
  exact ⟨s, List.getElem?_mem hs, (adjustOne_score_le _ _ s).1, (adjustOne_score_le _ _ s).2⟩

/-- C1 (amended): with well-formed post numbers (1..N, N <= 18), every
score coming out of the pace score calculator lies in [1.0, 18.0], but
after the synergy adjuster the guarantee is only [1.0, 19.5]: the
adjuster adds its penalty after the clamp and can push a score up to 1.5
above the 18.0 ceiling. -/
theorem c1_bounds (horses : List Horse) (current_dist : Int)
    (current_venue current_track : String)
    (hnum : ∀ h ∈ horses, 1 ≤ h.horse_number ∧ h.horse_number ≤ (horses.length : Int))
    (hlen : horses.length ≤ 18) :
    (∀ g ∈ horses.map (fun hh =>
        calculate_pace_score hh current_dist current_venue current_track (horses.length : Int)),
      1 ≤ g.score ∧ g.score ≤ 18) ∧
    (∀ g ∈ score_field horses current_dist current_venue current_track,
      1 ≤ g.score ∧ g.score ≤ 39 / 2) := by
  have hcalc : ∀ g ∈ horses.map (fun hh =>
      calculate_pace_score hh current_dist current_venue current_track (horses.length : Int)),
      1 ≤ g.score ∧ g.score ≤ 18 := by
    intro g hg
    rw [List.mem_map] at hg
    obtain ⟨hh, hmem, rfl⟩ := hg
    obtain ⟨h1, h2⟩ := hnum hh hmem
    refine calc_score_bounds hh _ _ _ _ h1 ?_
    have hl18 : (horses.length : Int) ≤ 18 := by exact_mod_cast hlen
    omega
  refine ⟨hcalc, ?_⟩
  intro g hg
  unfold score_field at hg
  obtain ⟨s, hsm, l1, l2⟩ := synergy_bounds_mem _ _ _ _ g hg
  have hb := hcalc s hsm
  constructor
  · linarith [hb.1]
  · linarith [hb.2]

/-- C1 counterexample: a two-horse field in which horse 1 (a must-lead
winner that put on 100kg) is clamped to exactly 18.0 by the calculator,
then the yield-the-lead rule fires and adds 1.5 on top: its final score
is 19.5, outside [1.0, 18.0]. -/
theorem c1_counterexample :
    (score_field [c1A, c1B] 2000 "東京" "芝").map Horse.score = [39 / 2, 201 / 20] ∧
      ¬ ((39 / 2 : ℚ) ≤ 18) := by
  constructor
  · norm_num [score_field, apply_give_up_synergy, synergyGo, adjustOne, giveUpAgainst,
      calculate_pace_score, pace_nonempty, pace_empty, pace_raw, base_position_val,
      base_mod_val, late_penalty_val, special_flag_val, speed_advantage_val, max_speed_val,
      listMaxQ, extract_jockey_target_position, determine_running_style, is_race_success,
      calculate_early_pace_speed, appendFlag, c1A, c1B, r480win, JRA_VENUES,
      outside_adv_courses, max_def, min_def]
  · norm_num

/-- C1 witness: the bound theorem applied to a concrete one-horse field. -/
theorem c1_bounds_witness :
    1 ≤ (score_field [c1w] 2000 "東京" "芝").head!.score ∧
      (score_field [c1w] 2000 "東京" "芝").head!.score ≤ 39 / 2 := by
  have H := (c1_bounds [c1w] 2000 "東京" "芝"
    (by intro h hh; simp only [List.mem_singleton] at hh; subst hh; constructor <;> simp [c1w])
    (by norm_num)).2
  have hlen1 : (score_field [c1w] 2000 "東京" "芝").length = 1 := by
    unfold score_field
    rw [apply_synergy_length]
    simp
  have hne : score_field [c1w] 2000 "東京" "芝" ≠ [] := by
    intro hc
    rw [hc] at hlen1
    simp at hlen1
  exact H _ (List.head!_mem_self hne)

/-! ### Claim C5 -/

/-- C5 counterexample: `c5A` is must-lead with score 10 at post 2 and
`c5B` has the strictly better score 9.5 - but it is better by less than
1.0 and drawn outward (post 3) on a course that does not favor outside
posts, so the source's give-up test does not fire: `c5A` keeps its score
and its `ハナ絶対` label, although the claim says a strictly better
rival always triggers the yield marking. -/
theorem c5_counterexample :
    apply_give_up_synergy [c5A, c5B] "東京" 2000 "芝" = [c5A, c5B] ∧
      c5B.score < c5A.score ∧ c5A.running_style = "ハナ絶対" := by
  refine ⟨?_, by norm_num [c5A, c5B], rfl⟩
  norm_num [apply_give_up_synergy, synergyGo, adjustOne, giveUpAgainst, c5A, c5B,
    outside_adv_courses]

/-- C5 (amended): in the adjuster's single pass, a must-lead horse at
position `j` is compared against the field state at that moment (already
adjusted earlier posts, untouched later ones); it is marked to yield
exactly when some rival is better by at least 1.0, or within 1.0
(including near-equal and slightly better) on the contested side -
outward post on an outside-favoring course, inward post otherwise; the
applied update is `yield_update`: an additive penalty of 1.0 when the
course favors outside posts and the horse is drawn in the outer half
(i.e., when the course structurally favors its position the penalty is
the smaller one), 1.5 otherwise, plus the annotation and the downgrade
of `ハナ絶対` to `先行（控える）`. -/
theorem c5_yield_rule (current_venue : String) (current_dist : Int) (current_track : String)
    (horses out field : List Horse) (b : Bool) (j : Nat) (h : Horse)
    (hb : b = decide ((current_venue, current_dist, current_track) ∈ outside_adv_courses))
    (hout : out = apply_give_up_synergy horses current_venue current_dist current_track)
    (hfield : field = out.take j ++ horses.drop j)
    (hj : horses[j]? = some h) (hstyle : h.running_style = "ハナ絶対") :
    ((∃ o ∈ field, giveUpAgainst b h o = true) →
      out[j]? = some (yield_update b field.length h)) ∧
    ((¬ ∃ o ∈ field, giveUpAgainst b h o = true) → out[j]? = some h) := by
  subst hb hout hfield
  constructor
  · intro hex
    rw [apply_synergy_get horses current_venue current_dist current_track j h hj,
      adjustOne_pos _ _ _ hstyle hex]
  · intro hnex
    rw [apply_synergy_get horses current_venue current_dist current_track j h hj,
      adjustOne_neg _ _ _ hnex]

/-- C5 witness: in the field `[c5wA, c5wB]` the rival is better by 1.5,
the give-up test fires, and the adjuster output at position 0 is exactly
the `yield_update` of the must-lead horse. -/
theorem c5_yield_rule_witness :
    (apply_give_up_synergy [c5wA, c5wB] "東京" 2000 "芝")[0]? =
      some (yield_update false
        ((apply_give_up_synergy [c5wA, c5wB] "東京" 2000 "芝").take 0
          ++ [c5wA, c5wB].drop 0).length c5wA) := by
  have H := c5_yield_rule "東京" 2000 "芝" [c5wA, c5wB]
    (apply_give_up_synergy [c5wA, c5wB] "東京" 2000 "芝")
    ((apply_give_up_synergy [c5wA, c5wB] "東京" 2000 "芝").take 0 ++ [c5wA, c5wB].drop 0)
    false 0 c5wA (by decide) rfl rfl rfl rfl
  refine H.1 ⟨c5wB, ?_, ?_⟩
  · simp
  · norm_num [giveUpAgainst, c5wA, c5wB]

/-! ### Claims C3, C4, C6, C8, C9 -/

/-- Most recent race of the C3 pair: a same-venue win from first-corner
position 3 (this fixes the jockey target at 3.0 for both horses). -/
def c3r1 : PastRace := ⟨"東京", "芝", 2000, "良", 1, 1, none, 3, false, 4, 480⟩

/-- Second race of horse `c3A`: a non-success with first-corner position 5. -/
def c3r2a : PastRace := ⟨"東京", "芝", 2000, "良", 10, 5, none, 5, false, 4, 480⟩

/-- Second race of horse `c3B`: the same non-success but with
first-corner position 15, changing the recent-3 mean from 4 to 9. -/
def c3r2b : PastRace := ⟨"東京", "芝", 2000, "良", 10, 5, none, 15, false, 4, 480⟩

/-- C3 counterexample horse A. -/
def c3A : Horse := { horse_number := 1, current_weight := 480, past_races := [c3r1, c3r2a] }

/-- C3 counterexample horse B - identical except for the older race's
first-corner position. -/
def c3B : Horse := { horse_number := 1, current_weight := 480, past_races := [c3r1, c3r2b] }

/-- C3 counterexample: the two horses' recency statistics (mean
first-corner position over the most recent 3 races: 4 versus 9) and
hence the spec's 60/40 blends differ, yet the code assigns both exactly
the same score - the recency term contributes nothing, contradicting
"both terms contribute and neither is discarded". -/
theorem c3_counterexample :
    (calculate_pace_score c3A 2000 "東京" "芝" 18).score =
      (calculate_pace_score c3B 2000 "東京" "芝" 18).score ∧
      spec_recency_mean c3A.past_races ≠ spec_recency_mean c3B.past_races ∧
      spec_base_position c3A.past_races "東京" ≠ spec_base_position c3B.past_races "東京" := by
  refine ⟨?_, ?_, ?_⟩
  · norm_num [calculate_pace_score, pace_nonempty, pace_raw, base_position_val,
      base_mod_val, late_penalty_val, special_flag_val, speed_advantage_val, max_speed_val,
      listMaxQ, extract_jockey_target_position, determine_running_style, is_race_success,
      calculate_early_pace_speed, appendFlag, c3A, c3B, c3r1, c3r2a, c3r2b, JRA_VENUES,
      outside_adv_courses, max_def, min_def]
  · norm_num [spec_recency_mean, c3A, c3B, c3r1, c3r2a, c3r2b]
  · norm_num [spec_base_position, spec_recency_mean, extract_jockey_target_position,
      is_race_success, c3A, c3B, c3r1, c3r2a, c3r2b]

/-- C3 witness: the invariance theorem applied to the concrete pair,
whose shared signals are: jockey target 3, no early speed, style
`控えOK`, identical last race, number and weight. -/
theorem c3_no_recency_blend_witness :
    (calculate_pace_score c3A 2000 "東京" "芝" 18).score =
      (calculate_pace_score c3B 2000 "東京" "芝" 18).score := by
  refine c3_no_recency_blend c3A c3B 2000 "東京" "芝" 18 (by simp [c3A]) (by simp [c3B])
    ?_ ?_ ?_ ?_ ?_ ?_
  · norm_num [extract_jockey_target_position, is_race_success, c3A, c3B, c3r1, c3r2a, c3r2b]
  · norm_num [max_speed_val, listMaxQ, calculate_early_pace_speed, c3A, c3B, c3r1, c3r2a,
      c3r2b]
  · norm_num [determine_running_style, c3A, c3B, c3r1, c3r2a, c3r2b]
  · rfl
  · rfl
  · rfl

/-- A valid last race for the C4 horse. -/
def c4r : PastRace := ⟨"東京", "芝", 2000, "良", 1, 1, none, 1, false, 4, 480⟩

/-- The C4 horse, scored under a malformed context. -/
def c4h : Horse := { horse_number := 1, current_weight := 480, past_races := [c4r] }

/-- C4 counterexample: called with a malformed race context (distance
-100, field size 0), the calculator does not reject - it silently runs
the full scoring formula, returning the clamped score 1.0 and even the
distance-cut annotation computed against the nonsensical distance.
There is no precondition check or typed failure anywhere in the core. -/
theorem c4_counterexample :
    (calculate_pace_score c4h (-100) "東京" "芝" 0).score = 1 ∧
      (calculate_pace_score c4h (-100) "東京" "芝" 0).special_flag = "🐢距離短縮(追走注意)" := by
  constructor <;>
    norm_num [calculate_pace_score, pace_nonempty, pace_raw, base_position_val,
      base_mod_val, late_penalty_val, special_flag_val, speed_advantage_val, max_speed_val,
      listMaxQ, extract_jockey_target_position, determine_running_style, is_race_success,
      calculate_early_pace_speed, appendFlag, c4h, c4r, JRA_VENUES, outside_adv_courses,
      max_def, min_def]

/-- C4 (amended): the core performs no malformed-context validation:
even with non-positive distance and non-positive field size it scores a
horse by the normal formula (yielding a clamped value in [1.0, 18.0]),
and a zero-horse field is processed to an empty output rather than
rejected. -/
theorem c4_no_validation (h : Horse) (current_dist : Int) (current_venue current_track : String)
    (total_horses : Int) (last_race : PastRace) (restPast : List PastRace)
    (hp : h.past_races = last_race :: restPast)
    (_hd : current_dist ≤ 0) (_ht : total_horses ≤ 0) :
    (1 ≤ (calculate_pace_score h current_dist current_venue current_track total_horses).score ∧
      (calculate_pace_score h current_dist current_venue current_track total_horses).score ≤ 18)
    ∧ score_field ([] : List Horse) current_dist current_venue current_track = [] := by
  constructor
  · rw [calculate_pace_score_cons h last_race restPast current_dist current_venue current_track
      total_horses hp, pace_nonempty_score]
    exact ⟨clamp_ge_one _, clamp_le_eighteen _⟩
  · rfl

/-- C4 witness: the no-validation theorem at the concrete malformed
context (distance -100, field size 0). -/
theorem c4_no_validation_witness :
    (1 ≤ (calculate_pace_score c4h (-100) "東京" "芝" 0).score ∧
      (calculate_pace_score c4h (-100) "東京" "芝" 0).score ≤ 18)
    ∧ score_field ([] : List Horse) (-100) "東京" "芝" = [] :=
  c4_no_validation c4h (-100) "東京" "芝" 0 c4r [] rfl (by norm_num) le_rfl

/-- Most recent race for the C6 counterexample: a source-success
(finish 3 of popularity 2 is `finish <= 3`) at the current venue, from
first-corner position 8; under the claim's definition it is not a
success at all (finish is not 1 and popularity 2 < finish 3 is false). -/
def c6r0 : PastRace := ⟨"東京", "芝", 2000, "良", 3, 2, none, 8, false, 4, 480⟩

/-- Older race for the C6 counterexample: a win at popularity 10 - under
the claim's surprise score by far the best success record (surprise
(10-1)+10+bonus) - from first-corner position 2. -/
def c6r1 : PastRace := ⟨"東京", "芝", 2000, "良", 1, 10, none, 2, false, 4, 480⟩

/-- C6 counterexample: the claim's rule (pick the success record of
maximum surprise score among successes `finish==1 or pop>finish`) would
select `c6r1` and return 2.0; the code has no surprise score - it takes
the most recent record satisfying its broader success test
(`finish<=3 or pop>finish`) at the same venue, here `c6r0`, and
returns 8.0. -/
theorem c6_counterexample :
    extract_jockey_target_position [c6r0, c6r1] "東京" = 8 ∧
      ¬ spec_success c6r0 ∧ spec_success c6r1 ∧ (c6r1.first_corner_pos : ℚ) = 2 ∧
      (8 : ℚ) ≠ 2 := by
  refine ⟨?_, by decide, by decide, by norm_num [c6r1], by norm_num⟩
  norm_num [extract_jockey_target_position, is_race_success, c6r0, c6r1]

/-- C6 (amended): with success defined as `finish_position <= 3` or
`popularity > finish_position`, the extractor returns the
`first_corner_position` of the most recent same-venue success (else most
recent success, else the mean); in particular whenever the most recent
race is itself a same-venue success its first-corner position is
returned - 1.0 in the claim's scenario. -/
theorem c6_most_recent_success (past : List PastRace) (current_venue : String)
    (r : PastRace) (rest : List PastRace) (hp : past = r :: rest)
    (hs : is_race_success r) (hv : r.venue = current_venue) :
    extract_jockey_target_position past current_venue = (r.first_corner_pos : ℚ) := by
  subst hp
  unfold extract_jockey_target_position
  simp [List.filter_cons, hs, hv]

/-- The claim's scenario record: last race finish 1, popularity 5,
first corner 1, same venue. -/
def c6w : PastRace := ⟨"東京", "芝", 2000, "良", 1, 5, none, 1, false, 4, 480⟩

/-- C6 witness: the scenario - a same-venue beat-expectation win as the
most recent race - returns 1.0. -/
theorem c6_most_recent_success_witness :
    extract_jockey_target_position [c6w] "東京" = 1 :=
  c6_most_recent_success [c6w] "東京" c6w [] rfl (by decide) rfl

/-- The C8 horse: empty history, drawn at post 16. -/
def c8h : Horse := { horse_number := 16, current_weight := 480, past_races := [] }

/-- C8 counterexample: an empty-history horse at post 16 of 16 on
中山 dirt 1200 - an `outside_adv_courses` entry - still receives
`10 + (16-1)*0.05 = 10.75`; the claim's inverted post term would give
`10 + (16-16)*0.02 - 0.15 = 9.85`.  The empty-history branch never
applies the inversion. -/
theorem c8_counterexample :
    (calculate_pace_score c8h 1200 "中山" "ダート" 16).score = 43 / 4 ∧
      (43 / 4 : ℚ) ≠ 10 + ((16 : ℚ) - 16) * 0.02 - 0.15 := by
  constructor
  · norm_num [calculate_pace_score, pace_empty, c8h]
  · norm_num

/-- C8 (amended): a horse with an empty past-race history always scores
`10.0 + (horse_number - 1) * 0.05` - the neutral base plus the baseline
per-stall term only, identical for every venue, distance, surface and
field size (so the outside-post inversion is never applied), and the
result is a plain rational: no exception, no NaN. -/
theorem c8_empty_default (h : Horse) (current_dist : Int) (current_venue current_track : String)
    (total_horses : Int) (hp : h.past_races = []) :
    (calculate_pace_score h current_dist current_venue current_track total_horses).score =
      10 + ((h.horse_number : ℚ) - 1) * 0.05 := by
  rw [calculate_pace_score_nil h current_dist current_venue current_track total_horses hp,
    pace_empty_score]

/-- C8 witness: the empty-history default at the concrete horse `c8h`
on the outside-favoring course. -/
theorem c8_empty_default_witness :
    (calculate_pace_score c8h 1200 "中山" "ダート" 16).score =
      10 + ((c8h.horse_number : ℚ) - 1) * 0.05 :=
  c8_empty_default c8h 1200 "中山" "ダート" 16 rfl

/-- The single past race of the C9 counterexample pair: an early-3F time
of 30.0s gives early speed 20.0, hence speed advantage
(16.8-20)*3 = -9.6, dragging the raw score below the 1.0 floor. -/
def c9r : PastRace := ⟨"東京", "芝", 2000, "良", 1, 1, some 30, 1, false, 4, 480⟩

/-- C9 counterexample horse with no weight change (raw score -9). -/
def c9X : Horse := { horse_number := 1, current_weight := 480, past_races := [c9r] }

/-- C9 counterexample horse, identical but 4kg heavier (raw score -8). -/
def c9Y : Horse := { horse_number := 1, current_weight := 484, past_races := [c9r] }

/-- C9 counterexample: both the unchanged horse and its 4kg-heavier twin
land below the floor and are clamped to exactly 1.0, so the heavier
horse's final score is NOT strictly greater - yet neither score is 18.0,
so the claimed let-out "unless the 18.0 ceiling clamps it" does not
apply; it is the 1.0 floor that absorbs the +1.0 weight modifier. -/
theorem c9_counterexample :
    (calculate_pace_score c9X 2000 "東京" "芝" 2).score = 1 ∧
      (calculate_pace_score c9Y 2000 "東京" "芝" 2).score = 1 ∧
      c9Y.current_weight = c9X.current_weight + 4 ∧
      ¬ ((1 : ℚ) < 1) ∧ (1 : ℚ) ≠ 18 := by
  refine ⟨?_, ?_, by norm_num [c9X, c9Y], by norm_num, by norm_num⟩ <;>
  · simp [calculate_pace_score, pace_nonempty, pace_raw, base_position_val,
      base_mod_val, late_penalty_val, special_flag_val, speed_advantage_val, max_speed_val,
      listMaxQ, extract_jockey_target_position, determine_running_style, is_race_success,
      calculate_early_pace_speed, appendFlag, c9X, c9Y, c9r, JRA_VENUES, outside_adv_courses,
      turf_start_dirt, uphill_starts, downhill_starts, List.filterMap_cons, max_def, min_def]
    norm_num

/-- C9 (amended): with history fixed and only `current_weight` varying,
the pace score is monotone non-decreasing in the weight; and for the 4kg
scenario (weight equal to the last race's weight versus 4kg above it)
the raw sum gains exactly +1.0, so the final score strictly increases by
exactly 1.0 whenever neither clamp binds - the lighter horse above the
1.0 floor and the heavier one below the 18.0 ceiling. -/
theorem c9_weight_monotone (h : Horse) (current_dist : Int)
    (current_venue current_track : String) (total_horses : Int) (w1 w2 : ℚ)
    (last_race : PastRace) (restPast : List PastRace)
    (hp : h.past_races = last_race :: restPast) (hw : w1 ≤ w2) :
    ((calculate_pace_score { h with current_weight := w1 } current_dist current_venue
        current_track total_horses).score ≤
      (calculate_pace_score { h with current_weight := w2 } current_dist current_venue
        current_track total_horses).score) ∧
    (w1 = last_race.weight → w2 = last_race.weight + 4 →
      1 < (calculate_pace_score { h with current_weight := w1 } current_dist current_venue
        current_track total_horses).score →
      (calculate_pace_score { h with current_weight := w2 } current_dist current_venue
        current_track total_horses).score < 18 →
      (calculate_pace_score { h with current_weight := w2 } current_dist current_venue
        current_track total_horses).score =
        (calculate_pace_score { h with current_weight := w1 } current_dist current_venue
          current_track total_horses).score + 1) := by
  have hp1 : ({ h with current_weight := w1 } : Horse).past_races = last_race :: restPast := hp
  have hp2 : ({ h with current_weight := w2 } : Horse).past_races = last_race :: restPast := hp
  rw [calculate_pace_score_cons _ last_race restPast current_dist current_venue current_track
    total_horses hp1,
    calculate_pace_score_cons _ last_race restPast current_dist current_venue current_track
    total_horses hp2, pace_nonempty_score, pace_nonempty_score]
  constructor
  · exact clamp_mono (pace_raw_mono h last_race restPast current_dist current_venue
      current_track total_horses w1 w2 hw)
  · intro e1 e2 hgt hlt
    subst e1
    subst e2
    rw [pace_raw_shift] at hlt ⊢
    exact clamp_shift hgt hlt

/-- The single past race of the C9 witness horse: jockey target 5 at the
same venue, no early-3F time, weight 480. -/
def c9wr : PastRace := ⟨"東京", "芝", 2000, "良", 1, 1, none, 5, false, 4, 480⟩

/-- The C9 witness horse (score 3.0 at weight 480, 4.0 at 484). -/
def c9w : Horse := { horse_number := 1, current_weight := 480, past_races := [c9wr] }

/-- C9 witness: at the concrete horse the 480kg version scores 3.0, the
484kg version 4.0 - monotone, and exactly +1.0 since no clamp binds. -/
theorem c9_weight_monotone_witness :
    ((calculate_pace_score { c9w with current_weight := 480 } 2000 "東京" "芝" 18).score ≤
      (calculate_pace_score { c9w with current_weight := 484 } 2000 "東京" "芝" 18).score) ∧
    ((calculate_pace_score { c9w with current_weight := 484 } 2000 "東京" "芝" 18).score =
      (calculate_pace_score { c9w with current_weight := 480 } 2000 "東京" "芝" 18).score
        + 1) := by
  have hsX : (calculate_pace_score { c9w with current_weight := 480 } 2000 "東京" "芝"
      18).score = 3 := by
    simp [calculate_pace_score, pace_nonempty, pace_raw, base_position_val,
      base_mod_val, late_penalty_val, special_flag_val, speed_advantage_val, max_speed_val,
      listMaxQ, extract_jockey_target_position, determine_running_style, is_race_success,
      calculate_early_pace_speed, appendFlag, c9w, c9wr, JRA_VENUES, outside_adv_courses,
      turf_start_dirt, uphill_starts, downhill_starts, List.filterMap_cons, max_def, min_def]
    norm_num
  have hsY : (calculate_pace_score { c9w with current_weight := 484 } 2000 "東京" "芝"
      18).score = 4 := by
    simp [calculate_pace_score, pace_nonempty, pace_raw, base_position_val,
      base_mod_val, late_penalty_val, special_flag_val, speed_advantage_val, max_speed_val,
      listMaxQ, extract_jockey_target_position, determine_running_style, is_race_success,
      calculate_early_pace_speed, appendFlag, c9w, c9wr, JRA_VENUES, outside_adv_courses,
      turf_start_dirt, uphill_starts, downhill_starts, List.filterMap_cons, max_def, min_def]
    norm_num
  have H := c9_weight_monotone c9w 2000 "東京" "芝" 18 480 484 c9wr [] rfl (by norm_num)
  refine ⟨H.1, H.2 ?_ ?_ ?_ ?_⟩
  · norm_num [c9wr]
  · norm_num [c9wr]
  · rw [hsX]
    norm_num
  · rw [hsY]
    norm_num

end Tenkai
